import Mathlib

/-!
Shallow embedding of the response-decoding and error-taxonomy layer of the
`philipshue` Rust crate (src/json.rs, src/errors.rs, src/bridge.rs,
src/success.rs).

Modelling conventions:
* Rust panics (`assert!`, `assert_eq!`, `unwrap`, `panic!`, out-of-bounds
  indexing) are modelled by `Option`/`none`: a function that can panic
  becomes a function into `Option`.
* `serde_json::Value` is modelled by `JsonValue`; JSON numbers are modelled
  as `Int` (every number appearing in the verified claims is an integer;
  `as_u64` is `some` exactly on integers in `[0, 2^64)`, as in serde_json).
  The `f32`/`f64` conversions in the `xy` arm are kept as the underlying
  integers, since no verified property touches floating point values.
* Rust strings are compared and split at char level; all string constants
  involved are ASCII, where byte indices (as used by `str::split_at`) and
  char indices coincide.
* Machine integer casts `as u8` / `as u16` are `% 2^8` / `% 2^16` on `Nat`.
-/

namespace PhilipsHue

/-- Model of `serde_json::Value` (numbers restricted to integers). -/
inductive JsonValue where
  | null : JsonValue
  | bool (b : Bool) : JsonValue
  | num (n : Int) : JsonValue
  | str (s : String) : JsonValue
  | arr (xs : List JsonValue) : JsonValue
  | obj (fields : List (String × JsonValue)) : JsonValue

/-- Rust `serde_json::Number::as_u64`: `some` exactly on integers representable
as an unsigned 64-bit integer. -/
def intAsU64 (n : Int) : Option Nat :=
  if 0 ≤ n ∧ n < 2 ^ 64 then some n.toNat else none

/-- Rust `serde_json::Value::as_u64` (`Some` only on `Number`s in `u64` range). -/
def JsonValue.as_u64 : JsonValue → Option Nat
  | .num n => intAsU64 n
  | _ => none

/-- Rust `serde_json::Value::as_str` (`Some` only on `String`s). -/
def JsonValue.as_str : JsonValue → Option String
  | .str s => some s
  | _ => none

/-! ## src/errors.rs : the bridge error-code taxonomy -/

/-- The `BridgeError` enum of `src/errors.rs` (generated by `error_enum!`):
every error code defined by the bridge vendor, plus the catch-all `Other`. -/
inductive BridgeError where
  | UnauthorizedUser
  | BodyContainsInvalidJson
  | ResourceNotAvailable
  | MethodNotAvailableForResource
  | MissingParametersInBody
  | ParameterNotAvailable
  | InvalidValueForParameter
  | ParameterIsNotModifiable
  | TooManyItemsInList
  | ProtalConnectionRequired
  | InternalError
  | LinkButtonNotPressed
  | DHCPCannotBeDisabled
  | InvalidUpdateState
  | DeviceIsSetToOff
  | GroupCouldNotBeCreatedGroupFull
  | DeviceCouldNotBeAddedGroupFull
  | DeviceIsUnreachable
  | UpdateOrDeleteGroupOfThisTypeNotAllowed
  | LightAlreadyUsed
  | SceneCouldNotBeCreated
  | SceneCouldNotBeCreatedBufferFull
  | SceneCouldNotBeRemoved
  | NotAllowedToCreateSensorType
  | SensorListIsFull
  | RuleEngineFull
  | ConditionError
  | ActionError
  | UnableToActivae
  | ScheduleListIsFull
  | ScheduleTimezoneNotValid
  | ScheduleCannotSetTimeAndLocalTime
  | CannotCreateSchedule
  | CannotEnableScheduleTimeInPast
  | CommandError
  | SourceModelInvalid
  | SourceFactoryNew
  | InvalidState
  | Other
deriving Repr, DecidableEq

/-- The `impl From<u16> for BridgeError` generated by the `error_enum!` macro in
`src/errors.rs`: the match on the numeric code, wildcard to `Other`.
The argument is the `u16` code (so meaningful inputs are `< 2^16`). -/
def BridgeError.fromCode (n : Nat) : BridgeError :=
  match n with
  | 1 => .UnauthorizedUser
  | 2 => .BodyContainsInvalidJson
  | 3 => .ResourceNotAvailable
  | 4 => .MethodNotAvailableForResource
  | 5 => .MissingParametersInBody
  | 6 => .ParameterNotAvailable
  | 7 => .InvalidValueForParameter
  | 8 => .ParameterIsNotModifiable
  | 11 => .TooManyItemsInList
  | 12 => .ProtalConnectionRequired
  | 901 => .InternalError
  | 101 => .LinkButtonNotPressed
  | 110 => .DHCPCannotBeDisabled
  | 111 => .InvalidUpdateState
  | 201 => .DeviceIsSetToOff
  | 301 => .GroupCouldNotBeCreatedGroupFull
  | 302 => .DeviceCouldNotBeAddedGroupFull
  | 304 => .DeviceIsUnreachable
  | 305 => .UpdateOrDeleteGroupOfThisTypeNotAllowed
  | 306 => .LightAlreadyUsed
  | 401 => .SceneCouldNotBeCreated
  | 402 => .SceneCouldNotBeCreatedBufferFull
  | 403 => .SceneCouldNotBeRemoved
  | 501 => .NotAllowedToCreateSensorType
  | 502 => .SensorListIsFull
  | 601 => .RuleEngineFull
  | 607 => .ConditionError
  | 608 => .ActionError
  | 609 => .UnableToActivae
  | 701 => .ScheduleListIsFull
  | 702 => .ScheduleTimezoneNotValid
  | 703 => .ScheduleCannotSetTimeAndLocalTime
  | 704 => .CannotCreateSchedule
  | 705 => .CannotEnableScheduleTimeInPast
  | 706 => .CommandError
  | 801 => .SourceModelInvalid
  | 802 => .SourceFactoryNew
  | 803 => .InvalidState
  | _ => .Other

/-- The documented code → variant table of `src/errors.rs`, as data (used to
state the taxonomy claim; the executable lookup is `BridgeError.fromCode`). -/
def bridgeErrorTable : List (Nat × BridgeError) :=
  [(1, .UnauthorizedUser), (2, .BodyContainsInvalidJson),
   (3, .ResourceNotAvailable), (4, .MethodNotAvailableForResource),
   (5, .MissingParametersInBody), (6, .ParameterNotAvailable),
   (7, .InvalidValueForParameter), (8, .ParameterIsNotModifiable),
   (11, .TooManyItemsInList), (12, .ProtalConnectionRequired),
   (901, .InternalError), (101, .LinkButtonNotPressed),
   (110, .DHCPCannotBeDisabled), (111, .InvalidUpdateState),
   (201, .DeviceIsSetToOff), (301, .GroupCouldNotBeCreatedGroupFull),
   (302, .DeviceCouldNotBeAddedGroupFull), (304, .DeviceIsUnreachable),
   (305, .UpdateOrDeleteGroupOfThisTypeNotAllowed), (306, .LightAlreadyUsed),
   (401, .SceneCouldNotBeCreated), (402, .SceneCouldNotBeCreatedBufferFull),
   (403, .SceneCouldNotBeRemoved), (501, .NotAllowedToCreateSensorType),
   (502, .SensorListIsFull), (601, .RuleEngineFull),
   (607, .ConditionError), (608, .ActionError), (609, .UnableToActivae),
   (701, .ScheduleListIsFull), (702, .ScheduleTimezoneNotValid),
   (703, .ScheduleCannotSetTimeAndLocalTime), (704, .CannotCreateSchedule),
   (705, .CannotEnableScheduleTimeInPast), (706, .CommandError),
   (801, .SourceModelInvalid), (802, .SourceFactoryNew),
   (803, .InvalidState)]

/-! ## src/json.rs : the response envelope -/

/-- The `Error` struct of `src/json.rs`: an error object returned from the
API (`type` is renamed to `code`). -/
structure Error where
  address : String
  description : String
  code : Nat
deriving Repr, DecidableEq

/-- The `HueResponse<T>` struct of `src/json.rs`: two independently optional
fields, as deserialized by serde (missing key ↦ `none`). -/
structure HueResponse (T : Type) where
  success : Option T
  error : Option Error
deriving Repr, DecidableEq

/-- The `HueError` type of `src/errors.rs` (`error_chain!`), restricted to the
variants this layer constructs: a bridge error, a string message
(`From<&str>`, used for malformed responses), and a JSON decode error. -/
inductive HueError where
  | bridgeError (address description : String) (error : BridgeError)
  | msg (s : String)
  | jsonError
deriving Repr, DecidableEq

/-- The `impl From<json::Error> for HueError` in `src/errors.rs`. -/
def HueError.fromJsonError (e : Error) : HueError :=
  .bridgeError e.address e.description (BridgeError.fromCode e.code)

/-- Model of `HueResponse::into_result` in `src/json.rs`: `success` (if present)
wins, else `error` (if present), else the malformed-response message. -/
def HueResponse.into_result {T : Type} (self : HueResponse T) :
    Except HueError T :=
  match self.success with
  | some t => .ok t
  | none =>
    match self.error with
    | some error => .error (HueError.fromJsonError error)
    | none => .error (.msg "Malformed repsonse")

/-- Whether a result is the malformed-response failure produced by
`into_result` when neither key is present. -/
def isMalformedFailure {T : Type} : Except HueError T → Bool
  | .error (.msg "Malformed repsonse") => true
  | _ => false

/-! ## src/bridge.rs : `extract` and `send` -/

/-- The function `extract` of `src/bridge.rs`: the loop
`for val in responses { res_v.push(val.into_result()?) }` — the `?` makes
the first error outcome abort the whole batch. -/
def extract {T : Type} : List (HueResponse T) → Except HueError (List T)
  | [] => .ok []
  | val :: rest =>
    match val.into_result with
    | .error e => .error e
    | .ok t =>
      match extract rest with
      | .error e => .error e
      | .ok ts => .ok (t :: ts)

/-- First value of a JSON object key, as serde field lookup. -/
def lookupField (fields : List (String × JsonValue)) (k : String) :
    Option JsonValue :=
  match fields with
  | [] => none
  | (k', v) :: rest => if k' = k then some v else lookupField rest k

/-- serde deserialization of the `Error` struct of `src/json.rs`: an object
with required fields `address` and `description` (strings) and `type` (a
`u16`), unknown fields ignored. -/
def decodeError (v : JsonValue) : Option Error :=
  match v with
  | .obj fields =>
    match lookupField fields "address", lookupField fields "description",
        lookupField fields "type" with
    | some a, some d, some (.num n) =>
      match a.as_str, d.as_str with
      | some address, some description =>
        if 0 ≤ n ∧ n < 2 ^ 16 then
          some { address := address, description := description,
                 code := n.toNat }
        else none
      | _, _ => none
    | _, _, _ => none
  | _ => none

/-- serde deserialization of `HueResponse<T>` of `src/json.rs`: an object
whose `success` and `error` keys are both optional (absent key ↦ `none`);
a present key must decode at its field type. -/
def decodeHueResponse {T : Type} (decodeT : JsonValue → Option T)
    (v : JsonValue) : Option (HueResponse T) :=
  match v with
  | .obj fields =>
    let dec := fun {α : Type} (d : JsonValue → Option α) (k : String) =>
      match lookupField fields k with
      | none => some none
      | some fv => (d fv).map some
    match dec decodeT "success", dec decodeError "error" with
    | some s, some e => some { success := s, error := e }
    | _, _ => none
  | _ => none

/-- serde deserialization of the elements of a JSON array, elementwise in
order, failing if any element fails. -/
def decodeElems {α : Type} (d : JsonValue → Option α) :
    List JsonValue → Option (List α)
  | [] => some []
  | x :: xs =>
    match d x, decodeElems d xs with
    | some a, some ys => some (a :: ys)
    | _, _ => none

/-- serde deserialization of `Vec<α>`: a JSON array, elementwise in order. -/
def decodeList {α : Type} (d : JsonValue → Option α) (v : JsonValue) :
    Option (List α) :=
  match v with
  | .arr xs => decodeElems d xs
  | _ => none

/-- The function `send` of `src/bridge.rs`, applied to an already-parsed JSON body (the
HTTP transport and `serde_json::from_reader` byte handling are out of
scope; `decodeT` stands for `T: Deserialize`). First the body is decoded
directly as a `T`; on failure it is decoded as a `Vec<HueResponse<T>>`
(failure of that is the propagated JSON error), the first element is taken
(`Malformed response` error if the vector is empty) and `into_result`ed. -/
def send {T : Type} (decodeT : JsonValue → Option T) (body : JsonValue) :
    Except HueError T :=
  match decodeT body with
  | some t => .ok t
  | none =>
    match decodeList (decodeHueResponse decodeT) body with
    | none => .error .jsonError
    | some rs =>
      match rs with
      | [] => .error (.msg "Malformed response")
      | r :: _ => r.into_result

/-! ## src/success.rs : change-record interpretation

`success.rs` interprets one success outcome, given as `Success`, a pair of
the resource path and the raw JSON value (`v.0` / `v.1`; the `Success`
tuple struct itself is declared in a module not present in the sources, so
it is modelled from the spec). -/

/-- Modelled from the spec: the `bridge::Success` tuple struct used by
`src/success.rs` but missing from the sources — "a success payload
expressed as (resource-path, raw-value) pairs", i.e. `RawChange{path,
value}`. `path` is the Rust field `.0` and `value` the field `.1`. -/
structure Success where
  path : String
  value : JsonValue

/-- Rust `str::split(sep)` on the underlying characters: the (non-empty)
list of chunks between occurrences of `sep`. -/
def splitChar (sep : Char) : List Char → List (List Char)
  | [] => [[]]
  | c :: cs =>
    if c = sep then [] :: splitChar sep cs
    else
      match splitChar sep cs with
      | [] => [[c]]
      | seg :: rest => (c :: seg) :: rest

/-- Rust `str::split(sep)` as a list of `String` segments (as produced by
`v.0.split('/')` in `src/success.rs`). -/
def splitOnChar (sep : Char) (s : String) : List String :=
  (splitChar sep s.data).map String.mk

/-- Rust `str::parse::<usize>` on the id segment: `some` exactly on
non-empty all-digit strings. (The optional leading `+` sign and the
`usize` overflow failure of Rust's parse are not modelled; no verified
property involves either.) -/
def parseNat? (cs : List Char) : Option Nat :=
  if cs ≠ [] ∧ cs.all Char.isDigit then
    some (cs.foldl (fun a c => a * 10 + (c.toNat - 48)) 0)
  else none

/-- The `State` enum of `src/success.rs` (`u8`/`u16` as `Nat`, the two
`f32`s of `Xy` as the underlying integer values). -/
inductive State where
  | On (b : Bool)
  | Bri (n : Nat)
  | Hue (n : Nat)
  | Sat (n : Nat)
  | Xy (x y : Int)
  | Ct (n : Nat)
  | Effect (s : String)
  | Other (state : String) (val : JsonValue)

/-- The `Light` change-record struct of `src/success.rs`. -/
structure Light where
  id : Nat
  state : State

/-- The match on `(state, v.1)` in `impl From<Success> for Light`
(src/success.rs lines 25–34), reorganized by value constructor (the Rust
arms are pairwise disjoint, so first-match order is preserved). Known
field/type pairs produce the typed variant (with the `as u8` / `as u16`
truncations as `% 256` / `% 65536`, after `as_u64().unwrap()`, whose panic
on a number outside `u64` range is `none`); every other pair falls to the
`State::Other{state, val}` arm. -/
def stateOf (state : String) (val : JsonValue) : Option State :=
  match val with
  | .bool b => if state = "on" then some (.On b) else some (.Other state val)
  | .num n =>
    if state = "bri" then (intAsU64 n).map fun u => .Bri (u % 2 ^ 8)
    else if state = "hue" then (intAsU64 n).map fun u => .Hue (u % 2 ^ 16)
    else if state = "sat" then (intAsU64 n).map fun u => .Sat (u % 2 ^ 8)
    else if state = "ct" then (intAsU64 n).map fun u => .Ct (u % 2 ^ 16)
    else some (.Other state val)
  | .arr xs =>
    if state = "xy" then
      -- `v[0].as_f64().unwrap() as f32, v[1].as_f64().unwrap() as f32`:
      -- indexing panics on fewer than two elements, `as_f64` panics on
      -- non-numbers; the integer values are kept as such.
      match xs with
      | .num a :: .num b :: _ => some (.Xy a b)
      | _ => none
    else some (.Other state val)
  | .str s => if state = "effect" then some (.Effect s) else some (.Other state val)
  | _ => some (.Other state val)

/-- The `impl From<Success> for Light` (src/success.rs lines 14–41) on the
already-split path: the segment iterator must yield `""`, `"lights"`, a
parseable id, `"state"`, and the field name; trailing segments are never
requested from the iterator. All assert/unwrap panics are `none` (the
order in which the Rust code panics is immaterial to the `Option`). -/
def lightFromPath (segs : List String) (val : JsonValue) : Option Light :=
  match segs with
  | a :: b :: idStr :: d :: state :: _ =>
    if a = "" ∧ b = "lights" ∧ d = "state" then
      match parseNat? idStr.data with
      | some id => (stateOf state val).map fun s => { id := id, state := s }
      | none => none
    else none
  | _ => none

/-- The `impl From<Success> for Light`: split the path on `/` and interpret. -/
def lightFrom (v : Success) : Option Light :=
  lightFromPath (splitOnChar '/' v.path) v.value

/-- The `Attrib` enum of `src/success.rs` (`usize` ids as `Nat`). -/
inductive Attrib where
  | Name (s : String)
  | Lights (ids : List Nat)
  | Class (s : String)

/-- The `Group` change-record struct of `src/success.rs`. -/
structure Group where
  id : Nat
  attrib : Attrib

/-- The match on `(attrib, v.1)` in `impl From<Success> for Group`
(src/success.rs lines 173–178), reorganized by value constructor (the Rust
arms are pairwise disjoint). There is no `Other` fallback: the catch-all
arm is `panic!`, i.e. `none`. In the `lights` arm each element goes
through `as_u64().unwrap() as usize` (the `usize` cast is the identity on
a 64-bit target). -/
def attribOf (attrib : String) (val : JsonValue) : Option Attrib :=
  match val with
  | .str s =>
    if attrib = "name" then some (.Name s)
    else if attrib = "class" then some (.Class s)
    else none
  | .arr xs =>
    if attrib = "lights" then (xs.mapM JsonValue.as_u64).map .Lights
    else none
  | _ => none

/-- The `impl From<Success> for Group` (src/success.rs lines 163–185) on the
already-split path: segments `""`, `"groups"`, a parseable id, then the
attribute name (no further constant segment); trailing segments are never
requested. -/
def groupFromPath (segs : List String) (val : JsonValue) : Option Group :=
  match segs with
  | a :: b :: idStr :: attrib :: _ =>
    if a = "" ∧ b = "groups" then
      match parseNat? idStr.data with
      | some id => (attribOf attrib val).map fun t => { id := id, attrib := t }
      | none => none
    else none
  | _ => none

/-- The `impl From<Success> for Group`: split the path on `/` and interpret. -/
def groupFrom (v : Success) : Option Group :=
  groupFromPath (splitOnChar '/' v.path) v.value

/-- The `Rename` change-record struct of `src/success.rs`. -/
structure Rename where
  id : Nat
  name : String

/-- The `impl From<Success> for Rename` (src/success.rs lines 115–131) on the
already-split path: segments `""`, `"lights"`, a parseable id, `"name"`;
the value must be a string (`v.1.as_str().unwrap()`). -/
def renameFromPath (segs : List String) (val : JsonValue) : Option Rename :=
  match segs with
  | a :: b :: idStr :: d :: _ =>
    if a = "" ∧ b = "lights" ∧ d = "name" then
      match parseNat? idStr.data with
      | some id => (val.as_str).map fun n => { id := id, name := n }
      | none => none
    else none
  | _ => none

/-- The `impl From<Success> for Rename`: split the path on `/` and interpret. -/
def renameFrom (v : Success) : Option Rename :=
  renameFromPath (splitOnChar '/' v.path) v.value

/-- The `Delete` change-record struct of `src/success.rs`. -/
structure Delete where
  id : Nat
deriving Repr, DecidableEq

/-- Index of the first space, as Rust `str::find(' ')`. -/
def findSp : List Char → Option Nat
  | [] => none
  | c :: cs => if c = ' ' then some 0 else (findSp cs).map (· + 1)

/-- The `impl From<String> for Delete` of `src/success.rs` (lines 140–152):
`split_at(8)` (panic when the string is shorter), assert the prefix is
`"/lights/"` or `"/groups/"`, find the first space (`unwrap` panic when
absent), `split_at` the space index — which leaves the space at the front
of the second half — and assert that second half equals `"deleted"`, then
parse the id. Every panic is `none`. -/
def deleteFrom (s : String) : Option Delete :=
  if s.data.length < 8 then none
  else if s.data.take 8 = "/lights/".data ∨ s.data.take 8 = "/groups/".data then
    -- `id_deleted` is `s.data.drop 8`; `split_at(space)` keeps the space at
    -- the head of the second half.
    match findSp (s.data.drop 8) with
    | none => none
    | some space =>
      if (s.data.drop 8).drop space = "deleted".data then
        (parseNat? ((s.data.drop 8).take space)).map Delete.mk
      else none
  else none

/-- Predicate: the (field, value) pair matches one of the seven known arms
of the `Light` state match (by field name and the value's runtime type). -/
def knownLightPair (state : String) (val : JsonValue) : Prop :=
  match val with
  | .bool _ => state = "on"
  | .num _ => state = "bri" ∨ state = "hue" ∨ state = "sat" ∨ state = "ct"
  | .arr _ => state = "xy"
  | .str _ => state = "effect"
  | _ => False

/-- Predicate: the (attribute, value) pair matches one of the three known
arms of the `Group` attribute match. -/
def knownGroupPair (attrib : String) (val : JsonValue) : Prop :=
  match val with
  | .str _ => attrib = "name" ∨ attrib = "class"
  | .arr _ => attrib = "lights"
  | _ => False

/-! ## Helper lemmas -/

/-- Elementwise soundness of `decodeElems`: a successful decode has the
same length as the input and decodes element `i` to result `i`. -/
theorem decodeElems_sound {α : Type} (d : JsonValue → Option α) :
    ∀ (xs : List JsonValue) (ys : List α), decodeElems d xs = some ys →
      ys.length = xs.length ∧
      ∀ i (hi : i < xs.length) (hi' : i < ys.length),
        d (xs.get ⟨i, hi⟩) = some (ys.get ⟨i, hi'⟩) := by
  intro xs
  induction xs with
  | nil =>
    intro ys h
    rw [decodeElems] at h
    cases h
    exact ⟨rfl, fun i hi _ => absurd hi (by simp)⟩
  | cons x xs ih =>
    intro ys h
    rw [decodeElems] at h
    rcases hd : d x with _ | a <;> rw [hd] at h
    · exact absurd h (by simp)
    · rcases he : decodeElems d xs with _ | zs <;> rw [he] at h
      · exact absurd h (by simp)
      · simp only [Option.some.injEq] at h
        subst h
        obtain ⟨hlen, helt⟩ := ih zs he
        refine ⟨by simp [hlen], ?_⟩
        intro i hi hi'
        cases i with
        | zero => simpa using hd
        | succ m =>
          exact helt m (by simpa using hi) (by simpa using hi')

/-- Position of the first space found by `findSp`: the drop at that index
starts with the space itself. -/
theorem findSp_drop :
    ∀ (cs : List Char) (i : Nat), findSp cs = some i →
      ∃ rest, cs.drop i = ' ' :: rest := by
  intro cs
  induction cs with
  | nil => intro i h; simp [findSp] at h
  | cons c cs ih =>
    intro i h
    by_cases hc : c = ' '
    · subst hc
      simp [findSp] at h
      subst h
      exact ⟨cs, rfl⟩
    · simp [findSp, hc] at h
      obtain ⟨j, hj, rfl⟩ := h
      obtain ⟨rest, hr⟩ := ih j hj
      exact ⟨rest, hr⟩

/-- Cast of a `u64`-ranged `Nat` through `intAsU64` is the identity. -/
theorem intAsU64_natCast (n : Nat) (h : n < 2 ^ 64) :
    intAsU64 (n : Int) = some n := by
  rw [intAsU64, if_pos]
  · simp
  · exact ⟨Int.natCast_nonneg n, by exact_mod_cast h⟩

/-- A segment list not of the shape `"" :: "lights" :: id :: "state" ::
field :: rest` interprets to `none` as a `Light`. -/
theorem lightFromPath_none (segs : List String) (val : JsonValue)
    (hne : ∀ idStr st rest,
      segs ≠ "" :: "lights" :: idStr :: "state" :: st :: rest) :
    lightFromPath segs val = none := by
  rcases segs with _ | ⟨a, _ | ⟨b, _ | ⟨c, _ | ⟨d, _ | ⟨e, rest⟩⟩⟩⟩⟩ <;>
    try rfl
  by_cases hc : a = "" ∧ b = "lights" ∧ d = "state"
  · obtain ⟨ha, hb, hd⟩ := hc
    subst ha; subst hb; subst hd
    exact absurd rfl (hne c e rest)
  · simp [lightFromPath, hc]

/-! ## Claim theorems -/

/-- C1 (counterexample): an outcome object carrying both a `success` and an
`error` key does not convert to a malformed-response failure:
`into_result` silently prefers the `success` key and returns `Ok`. -/
theorem c1_both_keys_prefers_success :
    HueResponse.into_result
        (⟨some 7, some ⟨"/lights/1", "boom", 1⟩⟩ : HueResponse Nat) = .ok 7
    ∧ isMalformedFailure
        (HueResponse.into_result
          (⟨some 7, some ⟨"/lights/1", "boom", 1⟩⟩ : HueResponse Nat))
        = false :=
  ⟨rfl, rfl⟩

/-- C1 (amended): a decoded outcome object with neither a `success` nor an
`error` key converts to the malformed-response failure; but when both keys
are present `into_result` silently prefers `success` and yields it as the
result (only the neither-key case is malformed). -/
theorem c1_into_result (T : Type) (r : HueResponse T) :
    (r.success = none → r.error = none →
      r.into_result = .error (.msg "Malformed repsonse"))
    ∧ (∀ t, r.success = some t → r.into_result = .ok t) := by
  constructor
  · intro hs he
    simp [HueResponse.into_result, hs, he]
  · intro t hs
    simp [HueResponse.into_result, hs]

/-- C1 witness: the amended behaviour at concrete outcome objects. -/
theorem c1_into_result_witness :
    HueResponse.into_result (⟨none, none⟩ : HueResponse Nat)
        = .error (.msg "Malformed repsonse")
    ∧ HueResponse.into_result
        (⟨some 5, some ⟨"a", "b", 1⟩⟩ : HueResponse Nat) = .ok 5 :=
  ⟨(c1_into_result Nat ⟨none, none⟩).1 rfl rfl,
   (c1_into_result Nat ⟨some 5, some ⟨"a", "b", 1⟩⟩).2 5 rfl⟩

/-- C2 (code bug evaluation): the delete-acknowledgement parser rejects the
spec's well-formed input `"5 deleted"` (the 8-character prefix assert
fails), rejects `"5 removed"`, and even rejects the bridge-shaped input
`"/lights/5 deleted"` (the substring compared against "deleted" keeps its
leading space), instead of yielding `Delete{id: 5}`. -/
theorem c2_delete_parser_rejects_all :
    deleteFrom "5 deleted" = none
    ∧ deleteFrom "5 removed" = none
    ∧ deleteFrom "/lights/5 deleted" = none :=
  ⟨rfl, rfl, rfl⟩

/-- C3 (counterexample): a batch mixing success and error outcomes is not
returned in full by `extract`: the error outcome is fatal to the whole
batch, which collapses to that single bridge error. -/
theorem c3_error_outcome_is_fatal :
    extract
        [({ success := some 7, error := none } : HueResponse Nat),
         { success := none,
           error := some ⟨"/lights/1/state/bri", "boom", 901⟩ },
         { success := some 8, error := none }]
      = .error (.bridgeError "/lights/1/state/bri" "boom" .InternalError) :=
  rfl

/-- C3 (amended): `extract` short-circuits on bridge errors: a batch whose
outcomes are all successes yields the full ordered list of success
payloads, while the first error outcome aborts the whole batch with that
outcome's bridge error. -/
theorem c3_extract_short_circuits (T : Type) :
    (∀ rs : List (HueResponse T),
      (∀ r ∈ rs, r.success.isSome) →
      extract rs = .ok (rs.filterMap fun r => r.success))
    ∧ (∀ (pre rest : List (HueResponse T)) (bad : HueResponse T) (e : Error),
      (∀ r ∈ pre, r.success.isSome) → bad.success = none →
      bad.error = some e →
      extract (pre ++ bad :: rest) = .error (HueError.fromJsonError e)) := by
  constructor
  · intro rs h
    induction rs with
    | nil => rfl
    | cons r rest ih =>
      obtain ⟨t, ht⟩ := Option.isSome_iff_exists.mp (h r (by simp))
      rw [extract, HueResponse.into_result, ht,
        ih fun r hr => h r (List.mem_cons_of_mem _ hr)]
      simp [List.filterMap_cons, ht]
  · intro pre rest bad e hpre hbs hbe
    induction pre with
    | nil =>
      rw [List.nil_append, extract, HueResponse.into_result, hbs, hbe]
    | cons p pre ih =>
      obtain ⟨t, ht⟩ := Option.isSome_iff_exists.mp (hpre p (by simp))
      rw [List.cons_append, extract, HueResponse.into_result, ht,
        ih fun r hr => hpre r (List.mem_cons_of_mem _ hr)]

/-- C3 witness: the amended behaviour at concrete batches. -/
theorem c3_extract_short_circuits_witness :
    extract
        [({ success := some 1, error := none } : HueResponse Nat),
         { success := some 2, error := none }] = .ok [1, 2]
    ∧ extract
        [({ success := some 1, error := none } : HueResponse Nat),
         { success := none, error := some ⟨"/a", "d", 901⟩ },
         { success := some 8, error := none }]
      = .error (HueError.fromJsonError ⟨"/a", "d", 901⟩) :=
  ⟨(c3_extract_short_circuits Nat).1 _ (by decide),
   (c3_extract_short_circuits Nat).2
     [⟨some 1, none⟩] [⟨some 8, none⟩] ⟨none, some ⟨"/a", "d", 901⟩⟩
     ⟨"/a", "d", 901⟩ (by decide) rfl rfl⟩

/-- C4 (counterexample): the `Other{field, raw}` fallback does not hold for
every resource kind: for groups an unknown attribute name panics (there is
no `Other` variant in `Attrib`), instead of yielding a fallback record. -/
theorem c4_group_unknown_field_panics :
    groupFrom ⟨"/groups/3/bogusfield", .str "x"⟩ = none :=
  rfl

/-- C4 (amended): for lights, every (field, value) pair outside the seven
known arms yields the `Other{field, raw}` fallback rather than failing —
e.g. `/lights/5/state/bogusfield` with value `"x"` gives
`Light{id: 5, state: Other}` — but for groups there is no fallback: every
(attribute, value) pair outside the three known arms panics. -/
theorem c4_other_fallback_lights_only :
    (∀ (state : String) (val : JsonValue), ¬ knownLightPair state val →
      stateOf state val = some (.Other state val))
    ∧ lightFrom ⟨"/lights/5/state/bogusfield", .str "x"⟩
        = some ⟨5, .Other "bogusfield" (.str "x")⟩
    ∧ (∀ (attrib : String) (val : JsonValue), ¬ knownGroupPair attrib val →
      attribOf attrib val = none) := by
  refine ⟨?_, rfl, ?_⟩
  · intro state val h
    cases val with
    | bool b =>
      rw [knownLightPair] at h
      simp [stateOf, h]
    | num n =>
      rw [knownLightPair] at h
      push_neg at h
      simp [stateOf, h.1, h.2.1, h.2.2.1, h.2.2.2]
    | arr xs =>
      rw [knownLightPair] at h
      simp [stateOf, h]
    | str s =>
      rw [knownLightPair] at h
      simp [stateOf, h]
    | null => rfl
    | obj fields => rfl
  · intro attrib val h
    cases val with
    | str s =>
      rw [knownGroupPair] at h
      push_neg at h
      simp [attribOf, h.1, h.2]
    | arr xs =>
      rw [knownGroupPair] at h
      simp [attribOf, h]
    | null => rfl
    | bool b => rfl
    | num n => rfl
    | obj fields => rfl

/-- C4 witness: the fallback arms at concrete unknown fields. -/
theorem c4_other_fallback_lights_only_witness :
    stateOf "bogusfield" (.str "x") = some (.Other "bogusfield" (.str "x"))
    ∧ attribOf "bogusfield" (.str "x") = none :=
  ⟨c4_other_fallback_lights_only.1 "bogusfield" (.str "x")
     (by rw [knownLightPair]; decide),
   c4_other_fallback_lights_only.2.2 "bogusfield" (.str "x")
     (by rw [knownGroupPair]; decide)⟩

/-- C5: decoding a JSON array of outcome objects through `send` (at the
batch type `Vec<HueResponse<T>>`, as every batch endpoint does) preserves
length and order — the batch has exactly one outcome per array element,
outcome `i` decoded from element `i` — and the empty array decodes to an
empty batch (`Ok`, not an error), which `extract` maps to an empty result. -/
theorem c5_batch_decode_preserves_order (T : Type)
    (dT : JsonValue → Option T) (elems : List JsonValue)
    (rs : List (HueResponse T))
    (h : decodeElems (decodeHueResponse dT) elems = some rs) :
    send (decodeList (decodeHueResponse dT)) (.arr elems) = .ok rs
    ∧ rs.length = elems.length
    ∧ (∀ i (hi : i < elems.length) (hi' : i < rs.length),
        decodeHueResponse dT (elems.get ⟨i, hi⟩) = some (rs.get ⟨i, hi'⟩))
    ∧ send (decodeList (decodeHueResponse dT)) (.arr []) = .ok []
    ∧ extract ([] : List (HueResponse T)) = .ok [] := by
  obtain ⟨hlen, helt⟩ := decodeElems_sound (decodeHueResponse dT) elems rs h
  exact ⟨by rw [send, decodeList, h], hlen, helt, rfl, rfl⟩

/-- C5 witness: a concrete two-outcome batch (one success, one error) and
its order-preserving decode. -/
theorem c5_batch_decode_preserves_order_witness :
    send (decodeList (decodeHueResponse JsonValue.as_str))
        (.arr [.obj [("success", .str "/lights/1 deleted")],
               .obj [("error", .obj [("address", .str "/lights/9"),
                                     ("description", .str "dead"),
                                     ("type", .num 901)])]])
      = .ok [⟨some "/lights/1 deleted", none⟩,
             ⟨none, some ⟨"/lights/9", "dead", 901⟩⟩] :=
  (c5_batch_decode_preserves_order String JsonValue.as_str
    [.obj [("success", .str "/lights/1 deleted")],
     .obj [("error", .obj [("address", .str "/lights/9"),
                           ("description", .str "dead"),
                           ("type", .num 901)])]]
    [⟨some "/lights/1 deleted", none⟩,
     ⟨none, some ⟨"/lights/9", "dead", 901⟩⟩] rfl).1

/-- C6: the error-code lookup is total on the `u16` codes: every code in
the documented table maps to its exact named variant (in particular 1 ↦
`UnauthorizedUser`, 101 ↦ `LinkButtonNotPressed`, 901 ↦ `InternalError`),
and every `u16` outside the table maps to `Other`. -/
theorem c6_error_code_taxonomy :
    (∀ p ∈ bridgeErrorTable, BridgeError.fromCode p.1 = p.2)
    ∧ (∀ n : Nat, n < 2 ^ 16 → n ∉ bridgeErrorTable.map Prod.fst →
        BridgeError.fromCode n = .Other)
    ∧ BridgeError.fromCode 1 = .UnauthorizedUser
    ∧ BridgeError.fromCode 101 = .LinkButtonNotPressed
    ∧ BridgeError.fromCode 901 = .InternalError := by
  refine ⟨by decide, ?_, rfl, rfl, rfl⟩
  intro n _ h
  unfold BridgeError.fromCode
  split
  all_goals first
    | rfl
    | (exact absurd (by decide) h)

/-- C6 witness: the taxonomy at concrete codes, known and unknown. -/
theorem c6_error_code_taxonomy_witness :
    BridgeError.fromCode 101 = .LinkButtonNotPressed
    ∧ BridgeError.fromCode 0 = .Other
    ∧ BridgeError.fromCode 51234 = .Other :=
  ⟨c6_error_code_taxonomy.1 (101, .LinkButtonNotPressed) (by decide),
   c6_error_code_taxonomy.2.1 0 (by decide) (by decide),
   c6_error_code_taxonomy.2.1 51234 (by decide) (by decide)⟩

/-- C7: well-formed success paths select the typed variant:
`/lights/5/state/bri` with value 200 gives `Light{id: 5, state: Bri 200}`,
and `/groups/3/lights` with value `[1,2,3]` gives
`Group{id: 3, attrib: Lights [1,2,3]}`. -/
theorem c7_typed_variant_selection :
    lightFrom ⟨"/lights/5/state/bri", .num 200⟩ = some ⟨5, .Bri 200⟩
    ∧ groupFrom ⟨"/groups/3/lights", .arr [.num 1, .num 2, .num 3]⟩
        = some ⟨3, .Lights [1, 2, 3]⟩ :=
  ⟨rfl, rfl⟩

/-- C8 (counterexample): a path with the wrong segment count is not always
a parse failure: trailing segments after the field are ignored, so the
six-segment path `/lights/5/state/bri/junk` interprets successfully. -/
theorem c8_trailing_segments_ignored :
    lightFrom ⟨"/lights/5/state/bri/junk", .num 200⟩ = some ⟨5, .Bri 200⟩ :=
  rfl

/-- C8 (amended): a success path with a non-numeric resource id is a hard
parse failure (`none`, never a fallback), and so is any path that does not
start with the segments `"" :: "lights" :: id :: "state" :: field` (too
few segments, wrong collection name, wrong constant segment); however,
extra trailing segments beyond the field are ignored, not rejected. -/
theorem c8_malformed_path_fails (p : String) (val : JsonValue) :
    (∀ idStr st rest,
      splitOnChar '/' p = "" :: "lights" :: idStr :: "state" :: st :: rest →
      parseNat? idStr.data = none → lightFrom ⟨p, val⟩ = none)
    ∧ ((∀ idStr st rest,
        splitOnChar '/' p ≠ "" :: "lights" :: idStr :: "state" :: st :: rest) →
      lightFrom ⟨p, val⟩ = none) := by
  constructor
  · intro idStr st rest hsplit hid
    rw [lightFrom, hsplit, lightFromPath, hid]
    simp
  · intro hne
    show lightFromPath (splitOnChar '/' p) val = none
    exact lightFromPath_none _ _ hne

/-- C8 witness: hard failures at a non-numeric id, a too-short path, and a
wrong collection name. -/
theorem c8_malformed_path_fails_witness :
    lightFrom ⟨"/lights/abc/state/bri", .num 200⟩ = none
    ∧ lightFrom ⟨"/lights/5/state", .num 200⟩ = none
    ∧ lightFrom ⟨"/groups/5/state/bri", .num 200⟩ = none :=
  ⟨(c8_malformed_path_fails "/lights/abc/state/bri" (.num 200)).1
     "abc" "bri" [] rfl rfl,
   (c8_malformed_path_fails "/lights/5/state" (.num 200)).2
     (by
       intro i s r h
       rw [show splitOnChar '/' "/lights/5/state"
         = ["", "lights", "5", "state"] from rfl] at h
       simp at h),
   (c8_malformed_path_fails "/groups/5/state/bri" (.num 200)).2
     (by
       intro i s r h
       rw [show splitOnChar '/' "/groups/5/state/bri"
         = ["", "groups", "5", "state", "bri"] from rfl] at h
       simp at h)⟩

/-- C9: the delete-acknowledgement parser can never produce a `Delete`
value: for every input string it panics (no space found, or the substring
compared against "deleted" retains its leading space). -/
theorem c9_delete_parser_never_succeeds : ∀ s, deleteFrom s = none := by
  intro s
  rw [deleteFrom]
  by_cases h1 : s.data.length < 8
  · rw [if_pos h1]
  · rw [if_neg h1]
    by_cases h2 : s.data.take 8 = "/lights/".data
        ∨ s.data.take 8 = "/groups/".data
    · rw [if_pos h2]
      rcases hf : findSp (s.data.drop 8) with _ | space
      · rfl
      · obtain ⟨rest, hr⟩ := findSp_drop _ _ hf
        have hne : ¬ (s.data.drop 8).drop space = "deleted".data := by
          rw [hr]
          intro hcontra
          have hdel : "deleted".data = ['d', 'e', 'l', 'e', 't', 'e', 'd'] :=
            rfl
          rw [hdel] at hcontra
          simp at hcontra
        show (if (s.data.drop 8).drop space = "deleted".data then
            (parseNat? ((s.data.drop 8).take space)).map Delete.mk
          else none) = none
        rw [if_neg hne]
    · rw [if_neg h2]

/-- C10: the brightness/saturation and hue/colour-temperature arms perform
no range check: a `u64`-representable number `n` is truncated to `n mod
2^8` (bri, sat) or `n mod 2^16` (hue, ct); in particular bri 300 yields
`Bri 44` rather than an error or a fallback. -/
theorem c10_numeric_truncation (n : Nat) (h : n < 2 ^ 64) :
    lightFrom ⟨"/lights/5/state/bri", .num n⟩ = some ⟨5, .Bri (n % 2 ^ 8)⟩
    ∧ lightFrom ⟨"/lights/5/state/hue", .num n⟩ = some ⟨5, .Hue (n % 2 ^ 16)⟩
    ∧ lightFrom ⟨"/lights/5/state/sat", .num n⟩ = some ⟨5, .Sat (n % 2 ^ 8)⟩
    ∧ lightFrom ⟨"/lights/5/state/ct", .num n⟩ = some ⟨5, .Ct (n % 2 ^ 16)⟩ := by
  refine ⟨?_, ?_, ?_, ?_⟩
  · simp [lightFrom,
      show splitOnChar '/' "/lights/5/state/bri"
        = ["", "lights", "5", "state", "bri"] from rfl,
      lightFromPath, show parseNat? "5".data = some 5 from rfl,
      stateOf, intAsU64_natCast n h]
  · simp [lightFrom,
      show splitOnChar '/' "/lights/5/state/hue"
        = ["", "lights", "5", "state", "hue"] from rfl,
      lightFromPath, show parseNat? "5".data = some 5 from rfl,
      stateOf, intAsU64_natCast n h]
  · simp [lightFrom,
      show splitOnChar '/' "/lights/5/state/sat"
        = ["", "lights", "5", "state", "sat"] from rfl,
      lightFromPath, show parseNat? "5".data = some 5 from rfl,
      stateOf, intAsU64_natCast n h]
  · simp [lightFrom,
      show splitOnChar '/' "/lights/5/state/ct"
        = ["", "lights", "5", "state", "ct"] from rfl,
      lightFromPath, show parseNat? "5".data = some 5 from rfl,
      stateOf, intAsU64_natCast n h]

/-- C10 witness: the out-of-range brightness 300 is stored as 44. -/
theorem c10_numeric_truncation_witness :
    lightFrom ⟨"/lights/5/state/bri", .num 300⟩ = some ⟨5, .Bri 44⟩ :=
  (c10_numeric_truncation 300 (by norm_num)).1

end PhilipsHue
